import Mathlib

/-!
Verification of the talk-app signaling backend (Go) against its
natural-language specification.

The Go sources are shallowly embedded:

* Go `map[string]V` becomes an association list `List (String × V)` with
  lookup `mfind`, delete `merase` (removes every entry with the key, so a
  subsequent insert keeps keys unique) and insert `minsert`.
* `time.Time` values become `Nat` instants; the second-resolution string
  `time.Now().Format("20060102150405")` used by `generateRoomID` is passed
  as an explicit `String` argument `ts` (two calls in the same second
  receive the same `ts`, calls in different seconds receive different
  `ts`).
* Pointer-typed `*models.User` structs are embedded by value: every
  constructor in the repository (`HandleWebSocket`, the tests) builds a
  `User` with a non-nil `*Connection`, so `Connection` is embedded as a
  plain field and the reaper's `user.Connection != nil` guard is always
  true.
* JSON payloads (`interface{}` decoded by encoding/json) become the
  inductive `JVal`; Go's `strings.Contains` becomes `strContains`.
* Functions that perform I/O are embedded as state transformers that also
  return the list of frames written, tagged with whether the write
  succeeded (`Connection.WriteJSON` succeeds iff the connection is
  active).
-/

namespace TalkApp

/-- Lookup in an association list, first match wins; embeds Go map
indexing `m[k]` (presence is the `, ok` result). -/
def mfind {α : Type} : List (String × α) → String → Option α
  | [], _ => none
  | e :: t, k => if e.1 = k then some e.2 else mfind t k

/-- Deletion from an association list, removing every entry with the key;
embeds Go `delete(m, k)`. -/
def merase {α : Type} : List (String × α) → String → List (String × α)
  | [], _ => []
  | e :: t, k => if e.1 = k then merase t k else e :: merase t k

/-- Insertion into an association list; embeds Go `m[k] = v`. -/
def minsert {α : Type} (m : List (String × α)) (k : String) (v : α) :
    List (String × α) :=
  (k, v) :: merase m k

/-- Keys of an association list. -/
def mkeys {α : Type} (m : List (String × α)) : List String :=
  m.map Prod.fst

/-- Key-uniqueness, the invariant every Go map satisfies. -/
def nodupKeys {α : Type} (m : List (String × α)) : Prop :=
  (mkeys m).Nodup

/-- Connection wrapper over one client's WebSocket
(src/backend/models/models.go, type Connection).  `lastPing` is the
last-liveness instant, `isActive` the active flag. -/
structure Conn where
  userID : String
  lastPing : Nat
  isActive : Bool
deriving Repr, DecidableEq

/-- Participant in one session (src/backend/models/models.go, type User).
Absent Go string fields are the zero value "". -/
structure User where
  id : String
  sessionID : String
  status : String
  connectedAt : Nat
  conn : Conn
  partnerID : String
  roomID : String
  callState : String
deriving Repr, DecidableEq

/-- A paired session (src/backend/models/models.go, type Room). -/
structure Room where
  id : String
  user1ID : String
  user2ID : String
  createdAt : Nat
  isActive : Bool
  callState : String
  startedAt : Option Nat
  endedAt : Option Nat
deriving Repr, DecidableEq

/-- The aggregate in-memory state (src/backend/models/models.go, type
UserPool): the four indices guarded by the pool's lock. -/
structure UserPool where
  waitingUsers : List (String × User)
  activeUsers : List (String × User)
  rooms : List (String × Room)
  userRooms : List (String × String)
deriving Repr, DecidableEq

/-- The pool `NewUserPool` starts from: all four indices empty. -/
def emptyPool : UserPool :=
  { waitingUsers := [], activeUsers := [], rooms := [], userRooms := [] }

/-- Embeds `generateRoomID` (models.go line 310): the second-resolution
formatted current time with suffix "-room". -/
def generateRoomID (ts : String) : String :=
  ts ++ "-room"

/-- Embeds `UserPool.AddWaitingUser` (models.go line 110): sets status
waiting and connected-at now, inserts into the waiting map. -/
def addWaitingUser (p : UserPool) (u : User) (now : Nat) : UserPool :=
  let u1 : User := { u with status := "waiting", connectedAt := now }
  { p with waitingUsers := minsert p.waitingUsers u.id u1 }

/-- Embeds `UserPool.GetRandomWaitingUser` (models.go line 118): the first
waiting entry whose key differs from `excludeID` (map iteration order is
modelled by list order). -/
def getRandomWaitingUser (p : UserPool) (excludeID : String) : Option User :=
  (p.waitingUsers.find? (fun e => !(e.1 == excludeID))).map Prod.snd

/-- Embeds `UserPool.CreateRoom` (models.go line 130).  The source checks
no precondition: it unconditionally builds the room, rewrites both user
structs, deletes both ids from waiting and inserts into active, rooms and
user-rooms.  `ts` is the formatted creation instant used for the room id,
`now` the creation instant. -/
def createRoom (p : UserPool) (user1 user2 : User) (now : Nat)
    (ts : String) : UserPool × Room :=
  let roomID := generateRoomID ts
  let room : Room :=
    { id := roomID, user1ID := user1.id, user2ID := user2.id,
      createdAt := now, isActive := true, callState := "idle",
      startedAt := none, endedAt := none }
  let u1 : User :=
    { user1 with
      status := "connected"
      partnerID := user2.id
      roomID := roomID
      callState := "idle" }
  let u2 : User :=
    { user2 with
      status := "connected"
      partnerID := user1.id
      roomID := roomID
      callState := "idle" }
  ({ waitingUsers := merase (merase p.waitingUsers user1.id) user2.id,
     activeUsers := minsert (minsert p.activeUsers user1.id u1) user2.id u2,
     rooms := minsert p.rooms roomID room,
     userRooms := minsert (minsert p.userRooms user1.id roomID)
       user2.id roomID },
   room)

/-- Embeds `UserPool.MoveToActive` (models.go line 167). -/
def moveToActive (p : UserPool) (userID : String) : UserPool :=
  match mfind p.waitingUsers userID with
  | some u =>
      { p with
        waitingUsers := merase p.waitingUsers userID
        activeUsers := minsert p.activeUsers userID
          { u with status := "connected" } }
  | none => p

/-- Embeds `UserPool.GetActiveUser` (models.go line 178); Go returns nil
when absent. -/
def getActiveUser (p : UserPool) (userID : String) : Option User :=
  mfind p.activeUsers userID

/-- Embeds `UserPool.RemoveUser` (models.go line 195): when the user has a
room binding, marks that room inactive and deletes the partner's binding
as well as the user's own; then deletes the user from waiting and
active. -/
def removeUser (p : UserPool) (userID : String) : UserPool :=
  let p1 :=
    match mfind p.userRooms userID with
    | some roomID =>
        match mfind p.rooms roomID with
        | some room =>
            let partnerID :=
              if room.user1ID = userID then room.user2ID else room.user1ID
            { p with
              rooms := minsert p.rooms roomID { room with isActive := false }
              userRooms := merase (merase p.userRooms partnerID) userID }
        | none => { p with userRooms := merase p.userRooms userID }
    | none => p
  { p1 with
    waitingUsers := merase p1.waitingUsers userID
    activeUsers := merase p1.activeUsers userID }

/-- Embeds `UserPool.FindPartner` (models.go line 219): follows the user's
room binding; when the room exists and is active, returns the active-map
entry of the other participant. -/
def findPartner (p : UserPool) (userID : String) : Option User :=
  match mfind p.userRooms userID with
  | some roomID =>
      match mfind p.rooms roomID with
      | some room =>
          if room.isActive then
            let partnerID :=
              if room.user1ID = userID then room.user2ID else room.user1ID
            mfind p.activeUsers partnerID
          else none
      | none => none
  | none => none

/-- Embeds `UserPool.MoveToWaiting` (models.go line 237): transfers the
user from active back to waiting, clearing partner-id and room-id.  The
user-rooms binding is not touched by the source. -/
def moveToWaiting (p : UserPool) (userID : String) : UserPool :=
  match mfind p.activeUsers userID with
  | some u =>
      { p with
        activeUsers := merase p.activeUsers userID
        waitingUsers := minsert p.waitingUsers userID
          { u with status := "waiting", partnerID := "", roomID := "" } }
  | none => p

/-- Snapshot returned by `UserPool.GetStats` (models.go line 250): the
sizes of the waiting, active and rooms maps. -/
structure Stats where
  waitingUsersCount : Nat
  activeUsersCount : Nat
  activeRoomsCount : Nat
deriving Repr, DecidableEq

/-- Embeds `UserPool.GetStats` (models.go line 250). -/
def getStats (p : UserPool) : Stats :=
  { waitingUsersCount := p.waitingUsers.length,
    activeUsersCount := p.activeUsers.length,
    activeRoomsCount := p.rooms.length }

/-- Embeds the body of the active-user branch of `performCleanup`
(models.go line 291): one iteration of the range loop over the active
map.  A stale entry is deleted from active and its connection closed;
when it has a nonempty room binding, the room is marked inactive and the
entry's own binding (only) is deleted.  The Go statements mutate the
indices one after another; since the delete from active does not affect
the binding lookup that follows it, the final state is assembled as one
record here. -/
def cleanupActiveEntry (cutoff : Nat) (p : UserPool) (e : String × User) :
    UserPool :=
  if e.2.conn.lastPing < cutoff then
    let roomID := (mfind p.userRooms e.1).getD ""
    let rooms2 :=
      if roomID ≠ "" then
        match mfind p.rooms roomID with
        | some room => minsert p.rooms roomID { room with isActive := false }
        | none => p.rooms
      else p.rooms
    let userRooms2 :=
      if roomID ≠ "" then merase p.userRooms e.1 else p.userRooms
    { waitingUsers := p.waitingUsers
      activeUsers := merase p.activeUsers e.1
      rooms := rooms2
      userRooms := userRooms2 }
  else p

/-- Embeds `UserPool.performCleanup` (models.go line 276): first the range
loop over the waiting map (stale connections closed and entries deleted),
then the range loop over the active map.  The Connection pointer is
always non-nil (see the file comment), so the nil-guard is dropped;
`cutoff` is now minus five minutes. -/
def performCleanup (p : UserPool) (cutoff : Nat) : UserPool :=
  p.activeUsers.foldl (cleanupActiveEntry cutoff)
    { p with
      waitingUsers :=
        p.waitingUsers.filter
          (fun e => !(decide (e.2.conn.lastPing < cutoff))) }

/-- One frame written through `Connection.WriteJSON`; `delivered` embeds
whether the write succeeded (models.go line 40 returns ErrCloseSent when
the connection is no longer active). -/
structure Frame where
  toID : String
  msgType : String
  delivered : Bool
deriving Repr, DecidableEq

/-- Embeds a `WriteJSON` call on a connection: delivery succeeds exactly
when the connection is still active. -/
def writeJSON (c : Conn) (toID msgType : String) : Frame :=
  { toID := toID, msgType := msgType, delivered := c.isActive }

/-- Embeds `SignalingServer.handleDisconnect` (signalings.go line 317):
find the partner; when present, write one partner_disconnected frame
(best effort) and move the partner back to waiting; then remove the
departing user.  The trailing `user.Connection.Close()` only mutates the
departing user's own connection struct, which is no longer referenced by
any pool index, so the pool state is unaffected by it.  Returns the new
pool and the frames written. -/
def handleDisconnect (p : UserPool) (userID : String) :
    UserPool × List Frame :=
  match findPartner p userID with
  | some partner =>
      let frame := writeJSON partner.conn partner.id "partner_disconnected"
      let p1 := moveToWaiting p partner.id
      (removeUser p1 userID, [frame])
  | none => (removeUser p userID, [])

/-- JSON values as decoded by encoding/json into `interface` values:
objects become keyed maps, numbers become float64 (modelled as `Int`,
which suffices for the claims under study). -/
inductive JVal where
  | str (s : String)
  | num (n : Int)
  | bool (b : Bool)
  | null
  | obj (fields : List (String × JVal))
  | arr (elems : List JVal)

/-- Character-list prefix test used by the substring embedding. -/
def isPfx : List Char → List Char → Bool
  | [], _ => true
  | _ :: _, [] => false
  | a :: as, b :: bs => a == b && isPfx as bs

/-- Character-list substring test. -/
def hasSub (pat : List Char) : List Char → Bool
  | [] => pat.isEmpty
  | c :: t => isPfx pat (c :: t) || hasSub pat t

/-- Embeds Go `strings.Contains s pat`. -/
def strContains (s pat : String) : Bool :=
  hasSub pat.data s.data

/-- Embeds Go `strings.HasPrefix s pat`. -/
def strStartsWith (s pat : String) : Bool :=
  isPfx pat.data s.data

/-- Embeds `validateSDPOfferDetailed` (signalings.go line 642), the
validator the offer dispatch path runs.  The checks, in source order:
payload is an object; sdp field present, a string, non-empty; a type
field that is present with a string value must equal offer; the sdp must
start with v=0, contain o=, s= and t=, and contain m=audio or
m=application.  No size ceiling is checked anywhere in the source
function. -/
def validateSDPOfferDetailed (payload : JVal) : Bool × String :=
  match payload with
  | .obj data =>
      match mfind data "sdp" with
      | none => (false, "missing sdp field in payload")
      | some sdpVal =>
          match sdpVal with
          | .str sdpStr =>
              if sdpStr.length = 0 then (false, "SDP cannot be empty")
              else
                let typeOk :=
                  match mfind data "type" with
                  | some (.str typeStr) => typeStr == "offer"
                  | some _ => true
                  | none => true
                if !typeOk then (false, "expected type offer")
                else if !(strStartsWith sdpStr "v=0") then
                  (false, "SDP must start with v=0")
                else if !(strContains sdpStr "o=") then
                  (false, "SDP missing required line o=")
                else if !(strContains sdpStr "s=") then
                  (false, "SDP missing required line s=")
                else if !(strContains sdpStr "t=") then
                  (false, "SDP missing required line t=")
                else if !(strContains sdpStr "m=audio"
                    || strContains sdpStr "m=application") then
                  (false, "SDP must contain at least one media line")
                else (true, "")
          | _ => (false, "SDP must be a string")
  | _ => (false, "payload must be a JSON object")

/-- Embeds `validateSDPAnswerDetailed` (signalings.go line 692): same
checks as the offer validator with expected type answer. -/
def validateSDPAnswerDetailed (payload : JVal) : Bool × String :=
  match payload with
  | .obj data =>
      match mfind data "sdp" with
      | none => (false, "missing sdp field in payload")
      | some sdpVal =>
          match sdpVal with
          | .str sdpStr =>
              if sdpStr.length = 0 then (false, "SDP cannot be empty")
              else
                let typeOk :=
                  match mfind data "type" with
                  | some (.str typeStr) => typeStr == "answer"
                  | some _ => true
                  | none => true
                if !typeOk then (false, "expected type answer")
                else if !(strStartsWith sdpStr "v=0") then
                  (false, "SDP must start with v=0")
                else if !(strContains sdpStr "o=") then
                  (false, "SDP missing required line o=")
                else if !(strContains sdpStr "s=") then
                  (false, "SDP missing required line s=")
                else if !(strContains sdpStr "t=") then
                  (false, "SDP missing required line t=")
                else if !(strContains sdpStr "m=audio"
                    || strContains sdpStr "m=application") then
                  (false, "SDP must contain at least one media line")
                else (true, "")
          | _ => (false, "SDP must be a string")
  | _ => (false, "payload must be a JSON object")

/-- Embeds `validateICECandidateDetailed` (signalings.go line 753):
payload is an object; candidate field present, a string, non-empty,
containing the literal candidate marker; sdpMLineIndex, when present,
need only be a number (no range check exists in the source); sdpMid,
when present, must be a string.  No size ceiling is checked. -/
def validateICECandidateDetailed (payload : JVal) : Bool × String :=
  match payload with
  | .obj data =>
      match mfind data "candidate" with
      | none => (false, "missing candidate field in payload")
      | some cv =>
          match cv with
          | .str candidateStr =>
              if candidateStr.length = 0 then
                (false, "candidate cannot be empty")
              else if !(strContains candidateStr "candidate:") then
                (false, "candidate must contain the candidate marker")
              else
                let mlineOk :=
                  match mfind data "sdpMLineIndex" with
                  | some (.num _) => true
                  | some _ => false
                  | none => true
                if !mlineOk then (false, "sdpMLineIndex must be a number")
                else
                  let midOk :=
                    match mfind data "sdpMid" with
                    | some (.str _) => true
                    | some _ => false
                    | none => true
                  if !midOk then (false, "sdpMid must be a string")
                  else (true, "")
          | _ => (false, "candidate must be a string")
  | _ => (false, "payload must be a JSON object")

/-- Embeds the legacy wrapper `validateSDPOffer` (signalings.go line
743). -/
def validateSDPOffer (payload : JVal) : Bool :=
  (validateSDPOfferDetailed payload).1

/-- Embeds the legacy wrapper `validateSDPAnswer` (signalings.go line
748). -/
def validateSDPAnswer (payload : JVal) : Bool :=
  (validateSDPAnswerDetailed payload).1

/-- Embeds the legacy wrapper `validateICECandidate` (signalings.go line
797). -/
def validateICECandidate (payload : JVal) : Bool :=
  (validateICECandidateDetailed payload).1

/-- State of the per-source session-slot counter inside
`middleware.RateLimiter` (ratelimit.go): the wsConnections map and the
configured cap.  The token buckets are not needed by the claims under
study. -/
structure RateLimiter where
  wsConnections : List (String × Nat)
  maxWSConnPerIP : Nat
deriving Repr, DecidableEq

/-- Embeds `RateLimiter.CheckWebSocketConnection` (ratelimit.go line 77):
fails when the current count has reached the cap, otherwise increments
the count. -/
def checkWebSocketConnection (rl : RateLimiter) (ip : String) :
    Bool × RateLimiter :=
  if rl.maxWSConnPerIP ≤ (mfind rl.wsConnections ip).getD 0 then (false, rl)
  else
    (true,
     { rl with
       wsConnections :=
         minsert rl.wsConnections ip
           ((mfind rl.wsConnections ip).getD 0 + 1) })

/-- Embeds `RateLimiter.ReleaseWebSocketConnection` (ratelimit.go line
91): decrements a positive count, deleting the entry when it reaches
zero. -/
def releaseWebSocketConnection (rl : RateLimiter) (ip : String) :
    RateLimiter :=
  match mfind rl.wsConnections ip with
  | some count =>
      if 0 < count then
        if count - 1 = 0 then
          { rl with wsConnections := merase rl.wsConnections ip }
        else
          { rl with wsConnections := minsert rl.wsConnections ip (count - 1) }
      else rl
  | none => rl

/-- Embeds the handshake portion of `SignalingServer.HandleWebSocket`
(signalings.go line 67) up to entering the read loop: the upgrade,
user-id and token generation and the session write are modelled as
succeeding.  The source never consults the rate limiter on this path
(the RateLimiter field of SignalingServer is an untyped placeholder), so
the limiter state passes through unchanged and the session is always
accepted.  `ip` is the request source. -/
def handleWebSocket (p : UserPool) (rl : RateLimiter) (ip : String)
    (userID token : String) (now : Nat) : UserPool × RateLimiter × Bool :=
  let connection : Conn :=
    { userID := userID, lastPing := now, isActive := true }
  let user : User :=
    { id := userID, sessionID := token, status := "waiting",
      connectedAt := 0, conn := connection, partnerID := "",
      roomID := "", callState := "" }
  (addWaitingUser p user now, rl, true)

/-- The closed set of User Pool mutations, for trace-level statements. -/
inductive PoolOp where
  | addWaiting (u : User) (now : Nat)
  | create (u1 u2 : User) (now : Nat) (ts : String)
  | toActive (userID : String)
  | toWaiting (userID : String)
  | remove (userID : String)
  | cleanup (cutoff : Nat)
  | disconnect (userID : String)

/-- Applies one pool mutation. -/
def applyOp (p : UserPool) : PoolOp → UserPool
  | .addWaiting u now => addWaitingUser p u now
  | .create u1 u2 now ts => (createRoom p u1 u2 now ts).1
  | .toActive userID => moveToActive p userID
  | .toWaiting userID => moveToWaiting p userID
  | .remove userID => removeUser p userID
  | .cleanup cutoff => performCleanup p cutoff
  | .disconnect userID => (handleDisconnect p userID).1

/-- Applies a sequence of pool mutations. -/
def applyOps (p : UserPool) (ops : List PoolOp) : UserPool :=
  ops.foldl applyOp p

/-! Concrete fixtures used by counterexamples and witnesses.  They mirror
the objects the tests build (signalings_test.go): users named a, b, c, d
with live connections; user a's connection has an old liveness instant
and user b's a recent one, so that with cutoff 50 user a is stale. -/

/-- Second-resolution timestamp string of the fixture pairing instant. -/
def tsAB : String := "20240101120000"

/-- Connection of fixture user a (stale at cutoff 50). -/
def connA : Conn := { userID := "a", lastPing := 0, isActive := true }

/-- Connection of fixture user b (fresh at cutoff 50). -/
def connB : Conn := { userID := "b", lastPing := 100, isActive := true }

/-- Connection of fixture user c. -/
def connC : Conn := { userID := "c", lastPing := 0, isActive := true }

/-- Connection of fixture user d. -/
def connD : Conn := { userID := "d", lastPing := 0, isActive := true }

/-- Fixture user a. -/
def userA : User :=
  { id := "a", sessionID := "ta", status := "waiting", connectedAt := 0,
    conn := connA, partnerID := "", roomID := "", callState := "" }

/-- Fixture user b. -/
def userB : User :=
  { id := "b", sessionID := "tb", status := "waiting", connectedAt := 0,
    conn := connB, partnerID := "", roomID := "", callState := "" }

/-- Fixture user c. -/
def userC : User :=
  { id := "c", sessionID := "tc", status := "waiting", connectedAt := 0,
    conn := connC, partnerID := "", roomID := "", callState := "" }

/-- Fixture user d. -/
def userD : User :=
  { id := "d", sessionID := "td", status := "waiting", connectedAt := 0,
    conn := connD, partnerID := "", roomID := "", callState := "" }

/-- Pool obtained by adding users a and b to the waiting pool and pairing
them, exactly as handleFindMatch would. -/
def poolAB : UserPool :=
  (createRoom (addWaitingUser (addWaitingUser emptyPool userA 0) userB 0)
    userA userB 0 tsAB).1

/-- The room created in `poolAB`. -/
def roomAB : Room :=
  (createRoom (addWaitingUser (addWaitingUser emptyPool userA 0) userB 0)
    userA userB 0 tsAB).2

/-- User b as stored in the active map of `poolAB`. -/
def buAB : User :=
  { userB with
    status := "connected"
    partnerID := "a"
    roomID := generateRoomID tsAB
    callState := "idle" }

/-- Pool holding the single waiting user c. -/
def poolC : UserPool := addWaitingUser emptyPool userC 0

/-- User a as stored in the active map of `poolAB`. -/
def auAB : User :=
  { userA with
    status := "connected"
    partnerID := "b"
    roomID := generateRoomID tsAB
    callState := "idle" }

/-! Claim C2: which pool mutators preserve the invariant that a user id
is a key of user-rooms iff it is a key of active. -/

/-- The invariant stated by the spec: a user identifier appears in
user-rooms iff it appears in active. -/
def userRoomsActiveInv (p : UserPool) : Prop :=
  ∀ k : String,
    (mfind p.userRooms k).isSome = true ↔
    (mfind p.activeUsers k).isSome = true

/-- Executable check equivalent to `userRoomsActiveInv`. -/
def userRoomsActiveInvB (p : UserPool) : Bool :=
  (mkeys p.userRooms).all (fun k => (mfind p.activeUsers k).isSome) &&
  (mkeys p.activeUsers).all (fun k => (mfind p.userRooms k).isSome)

/-- Bindings of the user-rooms index are nonempty strings; `CreateRoom`
only ever inserts ids of the shape ts ++ "-room". -/
def valsNonempty (m : List (String × String)) : Prop :=
  ∀ k v, mfind m k = some v → v ≠ ""

/-! Claim C6: characterization of the offer and answer validators. -/

/-- Shape conditions on the sdp string listed by the spec: non-empty,
begins with v=0, contains o=, s=, t=, and m=audio or m=application. -/
def sdpShapeOk (sdp : String) : Bool :=
  !(sdp.length == 0) && strStartsWith sdp "v=0" && strContains sdp "o=" &&
  strContains sdp "s=" && strContains sdp "t=" &&
  (strContains sdp "m=audio" || strContains sdp "m=application")

/-- Modelled from the claim text, word for word: a payload is accepted
iff it is a keyed map whose sdp field is a string of the right shape
and, whenever a type field is present, that field equals the expected
string (so a present non-string type field is not equal to it and must
be rejected). -/
def claimAcceptsSDP (expected : String) (payload : JVal) : Bool :=
  match payload with
  | .obj data =>
      (match mfind data "sdp" with
       | some (.str sdp) => sdpShapeOk sdp
       | _ => false) &&
      (match mfind data "type" with
       | some (.str t) => t == expected
       | some _ => false
       | none => true)
  | _ => false

/-- The claim as amended: identical to `claimAcceptsSDP` except that a
type field holding a non-string value is ignored, exactly as the source
type assertion does. -/
def amendedAcceptsSDP (expected : String) (payload : JVal) : Bool :=
  match payload with
  | .obj data =>
      (match mfind data "sdp" with
       | some (.str sdp) => sdpShapeOk sdp
       | _ => false) &&
      (match mfind data "type" with
       | some (.str t) => t == expected
       | some _ => true
       | none => true)
  | _ => false

/-- A well-formed sdp string used by counterexamples and witnesses. -/
def goodSdp : String := "v=0\no=x\ns=x\nt=x\nm=audio"

/-- An offer payload whose type field is the number 3. -/
def offerPayloadNumType : JVal :=
  .obj [("sdp", .str goodSdp), ("type", .num 3)]

/-! Claim C7: size ceilings and the sdpMLineIndex range on the
message-dispatch path.  Neither validator checks any size or range. -/

/-- An ICE candidate payload whose sdpMLineIndex is 100, outside the
claimed range of 0 to 10. -/
def candOutOfRange : JVal :=
  .obj [("candidate", .str "candidate:abc"), ("sdpMLineIndex", .num 100)]

/-! Claim C8: the per-source connection slot during the WebSocket
handshake.  `CheckWebSocketConnection` implements the cap, but
`HandleWebSocket` never calls it. -/

/-- A limiter whose source 1.2.3.4 already holds ten slots, the cap. -/
def rlFull : RateLimiter :=
  { wsConnections := [("1.2.3.4", 10)], maxWSConnPerIP := 10 }

theorem mfind_merase_self {α : Type} (m : List (String × α)) (k : String) :
    mfind (merase m k) k = none := by
  induction m with
  | nil => rfl
  | cons e t ih =>
    by_cases h : e.1 = k
    · simp [merase, h, ih]
    · simp [merase, mfind, h, ih]

theorem mfind_merase_ne {α : Type} (m : List (String × α)) {k j : String}
    (h : k ≠ j) : mfind (merase m k) j = mfind m j := by
  induction m with
  | nil => rfl
  | cons e t ih =>
    simp only [merase]
    by_cases he : e.1 = k
    · rw [if_pos he, ih]
      conv_rhs => rw [mfind]
      rw [if_neg (by rw [he]; exact h)]
    · rw [if_neg he]
      by_cases hj : e.1 = j
      · rw [mfind, mfind, if_pos hj, if_pos hj]
      · rw [mfind, mfind, if_neg hj, if_neg hj, ih]

theorem mfind_minsert_self {α : Type} (m : List (String × α)) (k : String)
    (v : α) : mfind (minsert m k v) k = some v := by
  simp [minsert, mfind]

theorem mfind_minsert_ne {α : Type} (m : List (String × α)) {k j : String}
    (v : α) (h : k ≠ j) : mfind (minsert m k v) j = mfind m j := by
  simp [minsert, mfind, h]
  exact mfind_merase_ne m h

theorem merase_of_mfind_none {α : Type} {m : List (String × α)}
    {k : String} (h : mfind m k = none) : merase m k = m := by
  induction m with
  | nil => rfl
  | cons e t ih =>
    by_cases he : e.1 = k
    · simp [mfind, he] at h
    · simp [mfind, he] at h
      simp [merase, he, ih h]

theorem mfind_eq_none_iff {α : Type} (m : List (String × α)) (k : String) :
    mfind m k = none ↔ k ∉ mkeys m := by
  induction m with
  | nil => simp [mfind, mkeys]
  | cons e t ih =>
    by_cases he : e.1 = k
    · simp [mfind, mkeys, he]
    · simp [mfind, mkeys, he, ih]
      intro h
      exact fun hk => he hk.symm

theorem merase_sublist {α : Type} (m : List (String × α)) (k : String) :
    (merase m k).Sublist m := by
  induction m with
  | nil => exact List.Sublist.refl _
  | cons e t ih =>
    simp only [merase]
    by_cases he : e.1 = k
    · rw [if_pos he]
      exact ih.cons e
    · rw [if_neg he]
      exact ih.cons₂ e

theorem length_merase_le {α : Type} (m : List (String × α)) (k : String) :
    (merase m k).length ≤ m.length :=
  (merase_sublist m k).length_le

theorem nodupKeys_merase {α : Type} {m : List (String × α)}
    (h : nodupKeys m) (k : String) : nodupKeys (merase m k) :=
  List.Nodup.sublist (List.Sublist.map Prod.fst (merase_sublist m k)) h

theorem nodupKeys_minsert {α : Type} {m : List (String × α)}
    (h : nodupKeys m) (k : String) (v : α) : nodupKeys (minsert m k v) := by
  have he := nodupKeys_merase h k
  have hn : k ∉ mkeys (merase m k) :=
    (mfind_eq_none_iff (merase m k) k).mp (mfind_merase_self m k)
  simp only [nodupKeys, minsert, mkeys, List.map_cons, List.nodup_cons]
  exact ⟨by simpa [mkeys] using hn, he⟩

theorem length_le_length_merase_succ {α : Type} {m : List (String × α)}
    (h : nodupKeys m) (k : String) :
    m.length ≤ (merase m k).length + 1 := by
  induction m with
  | nil => simp [merase]
  | cons e t ih =>
    have hcons := h
    simp only [nodupKeys, mkeys, List.map_cons, List.nodup_cons] at hcons
    by_cases he : e.1 = k
    · have hkt : mfind t k = none := by
        rw [mfind_eq_none_iff]
        rw [← he]
        simpa [mkeys] using hcons.1
      simp [merase, if_pos he, merase_of_mfind_none hkt]
    · have ht := ih (by simpa [nodupKeys, mkeys] using hcons.2)
      simp only [merase, if_neg he, List.length_cons]
      omega

theorem length_minsert_ge {α : Type} {m : List (String × α)}
    (h : nodupKeys m) (k : String) (v : α) :
    m.length ≤ (minsert m k v).length := by
  have := length_le_length_merase_succ h k
  simpa [minsert] using this

/-! Helper lemmas about the pool operations. -/

theorem mfind_some_mem {α : Type} {m : List (String × α)} {k : String}
    {v : α} (h : mfind m k = some v) : (k, v) ∈ m := by
  induction m with
  | nil => simp [mfind] at h
  | cons e t ih =>
    by_cases he : e.1 = k
    · simp [mfind, he] at h
      subst h
      rw [← he]
      exact List.mem_cons_self e t
    · simp [mfind, he] at h
      exact List.mem_cons_of_mem e (ih h)

theorem removeUser_waitingUsers (p : UserPool) (userID : String) :
    (removeUser p userID).waitingUsers = merase p.waitingUsers userID := by
  unfold removeUser
  cases hb : mfind p.userRooms userID with
  | none => rfl
  | some rid =>
    cases hr : mfind p.rooms rid with
    | none => simp [hr]
    | some room => simp [hr]

theorem removeUser_activeUsers (p : UserPool) (userID : String) :
    (removeUser p userID).activeUsers = merase p.activeUsers userID := by
  unfold removeUser
  cases hb : mfind p.userRooms userID with
  | none => rfl
  | some rid =>
    cases hr : mfind p.rooms rid with
    | none => simp [hr]
    | some room => simp [hr]

theorem removeUser_userRooms_self (p : UserPool) (userID : String) :
    mfind (removeUser p userID).userRooms userID = none := by
  unfold removeUser
  cases hb : mfind p.userRooms userID with
  | none => exact hb
  | some rid =>
    cases hr : mfind p.rooms rid with
    | none => simp [hr, mfind_merase_self]
    | some room => simp [hr, mfind_merase_self]

theorem moveToWaiting_userRooms (p : UserPool) (userID : String) :
    (moveToWaiting p userID).userRooms = p.userRooms := by
  unfold moveToWaiting
  cases h : mfind p.activeUsers userID <;> rfl

theorem moveToWaiting_rooms (p : UserPool) (userID : String) :
    (moveToWaiting p userID).rooms = p.rooms := by
  unfold moveToWaiting
  cases h : mfind p.activeUsers userID <;> rfl

theorem moveToActive_rooms (p : UserPool) (userID : String) :
    (moveToActive p userID).rooms = p.rooms := by
  unfold moveToActive
  cases h : mfind p.waitingUsers userID <;> rfl

theorem moveToActive_userRooms (p : UserPool) (userID : String) :
    (moveToActive p userID).userRooms = p.userRooms := by
  unfold moveToActive
  cases h : mfind p.waitingUsers userID <;> rfl

/-! Claim C1.  The specified precondition check does not exist in
`CreateRoom`: the source creates the room and rewrites all four indices
unconditionally. -/

/-- C1 counterexample: with an empty pool (so user a is certainly not a
key of `waiting`) and the two arguments being the same user (so the
distinctness precondition also fails), `CreateRoom` still returns a room
and still mutates the pool, contradicting the claim that a failed
precondition yields no room and no state change. -/
theorem c1_counterexample :
    mfind emptyPool.waitingUsers "a" = none ∧
    ((createRoom emptyPool userA userA 0 tsAB).2).id = generateRoomID tsAB ∧
    ((createRoom emptyPool userA userA 0 tsAB).2).isActive = true ∧
    (createRoom emptyPool userA userA 0 tsAB).1 ≠ emptyPool := by
  decide

/-- C1 amended: `create_room` checks no precondition at all.  For every
pool and every pair of user structs it returns an active room whose
participants are the two arguments, deletes both ids from `waiting`,
inserts the second (and, when the ids differ, also the first) into
`active`, and stores the room under its generated id. -/
theorem c1_amended (p : UserPool) (u1 u2 : User) (now : Nat) (ts : String) :
    ((createRoom p u1 u2 now ts).2).isActive = true ∧
    ((createRoom p u1 u2 now ts).2).user1ID = u1.id ∧
    ((createRoom p u1 u2 now ts).2).user2ID = u2.id ∧
    mfind ((createRoom p u1 u2 now ts).1).waitingUsers u1.id = none ∧
    mfind ((createRoom p u1 u2 now ts).1).waitingUsers u2.id = none ∧
    mfind ((createRoom p u1 u2 now ts).1).activeUsers u2.id ≠ none ∧
    (u1.id ≠ u2.id →
      mfind ((createRoom p u1 u2 now ts).1).activeUsers u1.id ≠ none) ∧
    mfind ((createRoom p u1 u2 now ts).1).rooms (generateRoomID ts) =
      some (createRoom p u1 u2 now ts).2 := by
  refine ⟨rfl, rfl, rfl, ?_, ?_, ?_, ?_, ?_⟩
  · simp only [createRoom]
    by_cases h : u2.id = u1.id
    · rw [h]
      exact mfind_merase_self _ _
    · rw [mfind_merase_ne _ h]
      exact mfind_merase_self _ _
  · exact mfind_merase_self _ _
  · simp only [createRoom]
    rw [mfind_minsert_self]
    exact fun h => by cases h
  · intro hne
    simp only [createRoom]
    rw [mfind_minsert_ne _ _ (fun h => hne h.symm), mfind_minsert_self]
    exact fun h => by cases h
  · simp only [createRoom]
    exact mfind_minsert_self _ _ _

/-- C1 witness: the amended theorem applied to the fixture pool and the
distinct users a and b, discharging the distinctness hypothesis of the
sixth conjunct. -/
theorem c1_witness :
    mfind ((createRoom emptyPool userA userB 0 tsAB).1).activeUsers
      userA.id ≠ none :=
  ((c1_amended emptyPool userA userB 0 tsAB).2.2.2.2.2.2.1) (by decide)

/-! Claim C9: running the teardown path twice equals running it once. -/

theorem removeUser_of_absent {p : UserPool} {userID : String}
    (hb : mfind p.userRooms userID = none)
    (hw : mfind p.waitingUsers userID = none)
    (ha : mfind p.activeUsers userID = none) :
    removeUser p userID = p := by
  unfold removeUser
  rw [hb]
  show ({ p with
          waitingUsers := merase p.waitingUsers userID
          activeUsers := merase p.activeUsers userID } : UserPool) = p
  rw [merase_of_mfind_none hw, merase_of_mfind_none ha]

/-- C9: teardown is idempotent.  After one `handleDisconnect`, the user
has no user-rooms binding (so `FindPartner` returns none and no frame is
written) and is absent from waiting and active (so the second
`RemoveUser` changes nothing): the second run returns the same pool and
writes no frames. -/
theorem c9_theorem (p : UserPool) (userID : String) :
    handleDisconnect ((handleDisconnect p userID).1) userID =
      ((handleDisconnect p userID).1, []) := by
  have hq : ∃ q, (handleDisconnect p userID).1 = removeUser q userID := by
    unfold handleDisconnect
    cases hfp : findPartner p userID with
    | none => exact ⟨p, rfl⟩
    | some partner => exact ⟨moveToWaiting p partner.id, rfl⟩
  rcases hq with ⟨q, hq⟩
  rw [hq]
  have hfp2 : findPartner (removeUser q userID) userID = none := by
    unfold findPartner
    rw [removeUser_userRooms_self]
  have hw : mfind (removeUser q userID).waitingUsers userID = none := by
    rw [removeUser_waitingUsers]
    exact mfind_merase_self _ _
  have ha : mfind (removeUser q userID).activeUsers userID = none := by
    rw [removeUser_activeUsers]
    exact mfind_merase_self _ _
  have hid : removeUser (removeUser q userID) userID = removeUser q userID :=
    removeUser_of_absent (removeUser_userRooms_self q userID) hw ha
  unfold handleDisconnect
  rw [hfp2, hid]

/-! Claim C3: teardown of a paired user notifies the live partner exactly
once and recycles the partner into waiting with cleared fields. -/

/-- C3: when user `a` tears down while paired (an active room binding
whose other participant `bu` is in the active map under its own id) and
the partner's connection is alive, `handleDisconnect` writes exactly one
delivered partner_disconnected frame to the partner, and afterwards the
partner is a waiting-map key with status waiting and empty partner-id and
room-id fields. -/
theorem c3_theorem (p : UserPool) (a rid pid : String) (room : Room)
    (bu : User)
    (hbind : mfind p.userRooms a = some rid)
    (hroom : mfind p.rooms rid = some room)
    (hact : room.isActive = true)
    (hpid : (if room.user1ID = a then room.user2ID else room.user1ID) = pid)
    (hbu : mfind p.activeUsers pid = some bu)
    (hid : bu.id = pid)
    (hne : pid ≠ a)
    (halive : bu.conn.isActive = true) :
    (handleDisconnect p a).2 =
      [{ toID := bu.id, msgType := "partner_disconnected",
         delivered := true }] ∧
    mfind ((handleDisconnect p a).1).waitingUsers bu.id =
      some { bu with status := "waiting", partnerID := "", roomID := "" } := by
  have hfp : findPartner p a = some bu := by
    simp [findPartner, hbind, hroom, hact, hpid, hbu]
  unfold handleDisconnect
  rw [hfp]
  constructor
  · simp [writeJSON, halive]
  · rw [removeUser_waitingUsers]
    have hane : a ≠ bu.id := fun h => hne (hid.symm.trans h.symm)
    rw [mfind_merase_ne _ hane]
    unfold moveToWaiting
    rw [hid, hbu]
    simp [mfind_minsert_self, hid]

/-- C3 witness: the theorem applied to the fixture pool in which a and b
are paired and b's connection is alive. -/
theorem c3_witness :
    (handleDisconnect poolAB "a").2 =
      [{ toID := buAB.id, msgType := "partner_disconnected",
         delivered := true }] ∧
    mfind ((handleDisconnect poolAB "a").1).waitingUsers buAB.id =
      some { buAB with status := "waiting", partnerID := "",
                       roomID := "" } :=
  c3_theorem poolAB "a" (generateRoomID tsAB) "b" roomAB buAB
    (by decide) (by decide) (by decide) (by decide) (by decide) (by decide)
    (by decide) (by decide)

theorem mfind_isSome_iff {α : Type} (m : List (String × α)) (k : String) :
    (mfind m k).isSome = true ↔ k ∈ mkeys m := by
  rw [Option.isSome_iff_ne_none, Ne, mfind_eq_none_iff]
  exact not_not

theorem inv_iff_invB (p : UserPool) :
    userRoomsActiveInv p ↔ userRoomsActiveInvB p = true := by
  constructor
  · intro h
    rw [userRoomsActiveInvB, Bool.and_eq_true, List.all_eq_true,
      List.all_eq_true]
    constructor
    · intro k hk
      exact (h k).mp ((mfind_isSome_iff _ k).mpr hk)
    · intro k hk
      exact (h k).mpr ((mfind_isSome_iff _ k).mpr hk)
  · intro hb k
    rw [userRoomsActiveInvB, Bool.and_eq_true, List.all_eq_true,
      List.all_eq_true] at hb
    constructor
    · intro hs
      exact hb.1 k ((mfind_isSome_iff _ k).mp hs)
    · intro hs
      exact hb.2 k ((mfind_isSome_iff _ k).mp hs)

/-- C2 counterexample: in the reachable pool where a and b are paired the
invariant holds, but after `MoveToWaiting a` it fails — the source
deletes a from active yet leaves the a binding in user-rooms, so the
claim that every mutator preserves the invariant is false. -/
theorem c2_counterexample :
    userRoomsActiveInv poolAB ∧
    ¬ userRoomsActiveInv (moveToWaiting poolAB "a") := by
  constructor
  · rw [inv_iff_invB]
    decide
  · rw [inv_iff_invB]
    decide

theorem valsNonempty_merase {m : List (String × String)}
    (h : valsNonempty m) (x : String) : valsNonempty (merase m x) := by
  intro k v hv
  by_cases hk : x = k
  · rw [hk, mfind_merase_self] at hv
    cases hv
  · rw [mfind_merase_ne _ hk] at hv
    exact h k v hv

theorem valsNonempty_of_all (m : List (String × String))
    (h : (m.all fun e => !(e.2 == "")) = true) : valsNonempty m := by
  intro k v hv
  have hm := mfind_some_mem hv
  rw [List.all_eq_true] at h
  have hx := h _ hm
  simpa using hx

theorem cleanupActiveEntry_preserves (cutoff : Nat) (p : UserPool)
    (e : String × User) (h1 : userRoomsActiveInv p)
    (h2 : valsNonempty p.userRooms) :
    userRoomsActiveInv (cleanupActiveEntry cutoff p e) ∧
    valsNonempty (cleanupActiveEntry cutoff p e).userRooms := by
  unfold cleanupActiveEntry
  by_cases hst : e.2.conn.lastPing < cutoff
  · rw [if_pos hst]
    cases hb : mfind p.userRooms e.1 with
    | none =>
        have hact : mfind p.activeUsers e.1 = none := by
          by_contra hcon
          have hs := (h1 e.1).mpr
            (Option.isSome_iff_ne_none.mpr hcon)
          rw [hb] at hs
          cases hs
        simp only [Option.getD_none]
        rw [if_neg (fun hcc => hcc rfl), if_neg (fun hcc => hcc rfl),
          merase_of_mfind_none hact]
        exact ⟨h1, h2⟩
    | some rid =>
        have hvne : rid ≠ "" := h2 e.1 rid hb
        simp only [Option.getD_some]
        rw [if_pos hvne, if_pos hvne]
        constructor
        · intro k
          by_cases hk : e.1 = k
          · rw [← hk]
            simp [mfind_merase_self]
          · rw [mfind_merase_ne _ hk, mfind_merase_ne _ hk]
            exact h1 k
        · exact valsNonempty_merase h2 e.1
  · rw [if_neg hst]
    exact ⟨h1, h2⟩

theorem cleanup_fold_preserves (cutoff : Nat) :
    ∀ (es : List (String × User)) (p : UserPool),
      userRoomsActiveInv p → valsNonempty p.userRooms →
      userRoomsActiveInv (es.foldl (cleanupActiveEntry cutoff) p) ∧
      valsNonempty (es.foldl (cleanupActiveEntry cutoff) p).userRooms := by
  intro es
  induction es with
  | nil =>
      intro p h1 h2
      exact ⟨h1, h2⟩
  | cons e t ih =>
      intro p h1 h2
      have hstep := cleanupActiveEntry_preserves cutoff p e h1 h2
      simpa using ih _ hstep.1 hstep.2

/-- C2 amended: `add_waiting`, `create_room` and the reaper pass preserve
the invariant (the reaper under the additional fact, guaranteed by
`CreateRoom`, that bindings are nonempty strings); but `move_to_active`
inserts into active without creating a binding and `remove` deletes the
partner's binding while the partner stays in active, so these — like
`move_to_waiting`, refuted separately — do not preserve it, as the two
concrete violations below show. -/
theorem c2_amended :
    (∀ (p : UserPool) (u : User) (now : Nat),
       userRoomsActiveInv p → userRoomsActiveInv (addWaitingUser p u now)) ∧
    (∀ (p : UserPool) (u1 u2 : User) (now : Nat) (ts : String),
       userRoomsActiveInv p →
       userRoomsActiveInv ((createRoom p u1 u2 now ts).1)) ∧
    (∀ (p : UserPool) (cutoff : Nat),
       userRoomsActiveInv p → valsNonempty p.userRooms →
       userRoomsActiveInv (performCleanup p cutoff)) ∧
    (userRoomsActiveInv poolC ∧
       ¬ userRoomsActiveInv (moveToActive poolC "c")) ∧
    (userRoomsActiveInv poolAB ∧
       ¬ userRoomsActiveInv (removeUser poolAB "a")) := by
  refine ⟨?_, ?_, ?_, ?_, ?_⟩
  · intro p u now h
    exact h
  · intro p u1 u2 now ts h k
    simp only [createRoom]
    by_cases h2k : u2.id = k
    · rw [← h2k]
      simp [mfind_minsert_self]
    · rw [mfind_minsert_ne _ _ h2k, mfind_minsert_ne _ _ h2k]
      by_cases h1k : u1.id = k
      · rw [← h1k]
        simp [mfind_minsert_self]
      · rw [mfind_minsert_ne _ _ h1k, mfind_minsert_ne _ _ h1k]
        exact h k
  · intro p cutoff h1 h2
    unfold performCleanup
    refine (cleanup_fold_preserves cutoff p.activeUsers _ ?_ ?_).1
    · exact h1
    · exact h2
  · constructor
    · rw [inv_iff_invB]
      decide
    · rw [inv_iff_invB]
      decide
  · constructor
    · rw [inv_iff_invB]
      decide
    · rw [inv_iff_invB]
      decide

/-- C2 witness: the three preservation parts of the amended theorem
applied at concrete pools, with the invariant and nonempty-bindings
hypotheses discharged by evaluation. -/
theorem c2_witness :
    userRoomsActiveInv (addWaitingUser poolAB userC 0) ∧
    userRoomsActiveInv ((createRoom poolC userC userD 0 tsAB).1) ∧
    userRoomsActiveInv (performCleanup poolAB 50) :=
  ⟨c2_amended.1 poolAB userC 0 ((inv_iff_invB poolAB).mpr (by decide)),
   c2_amended.2.1 poolC userC userD 0 tsAB
     ((inv_iff_invB poolC).mpr (by decide)),
   c2_amended.2.2.1 poolAB 50 ((inv_iff_invB poolAB).mpr (by decide))
     (valsNonempty_of_all poolAB.userRooms (by decide))⟩

/-! Claim C4: freshness of room identifiers.  `generateRoomID` is the
second-resolution wall-clock string plus a fixed suffix, so two calls
within the same second produce the same identifier. -/

/-- C4 counterexample: a second pairing in the same second as the one
recorded in `poolAB` is assigned the identifier of the room already
present in `rooms` — not a fresh one — and overwrites that room (the map
still holds one entry after two creations). -/
theorem c4_counterexample :
    mfind poolAB.rooms (generateRoomID tsAB) = some roomAB ∧
    ((createRoom poolAB userC userD 1 tsAB).2).id = roomAB.id ∧
    mfind ((createRoom poolAB userC userD 1 tsAB).1).rooms roomAB.id =
      some (createRoom poolAB userC userD 1 tsAB).2 ∧
    ((createRoom poolAB userC userD 1 tsAB).1).rooms.length = 1 := by
  decide

/-- C4 amended: the room id is exactly the formatted creation timestamp
with suffix "-room"; identifiers of rooms created at distinct
second-resolution instants are distinct, while a creation in the same
second as an existing room reuses its identifier and replaces that room
in the map. -/
theorem c4_amended :
    (∀ (p : UserPool) (u1 u2 : User) (now : Nat) (ts : String),
       ((createRoom p u1 u2 now ts).2).id = generateRoomID ts) ∧
    (∀ ts1 ts2 : String, ts1 ≠ ts2 →
       generateRoomID ts1 ≠ generateRoomID ts2) ∧
    (∀ (p : UserPool) (u1 u2 : User) (now : Nat) (ts : String),
       mfind ((createRoom p u1 u2 now ts).1).rooms (generateRoomID ts) =
         some (createRoom p u1 u2 now ts).2) := by
  refine ⟨fun p u1 u2 now ts => rfl, ?_,
    fun p u1 u2 now ts => mfind_minsert_self _ _ _⟩
  intro ts1 ts2 hne heq
  apply hne
  have hd : ts1.data ++ "-room".data = ts2.data ++ "-room".data := by
    have hc := congrArg String.data heq
    simpa [String.data_append, generateRoomID] using hc
  exact String.ext (List.append_cancel_right hd)

/-- C4 witness: the distinct-timestamp part of the amended theorem at two
concrete consecutive-second timestamps. -/
theorem c4_witness :
    generateRoomID "20240101120000" ≠ generateRoomID "20240101120001" :=
  c4_amended.2.1 "20240101120000" "20240101120001" (by decide)

/-! Claim C5: the reaper pass versus `remove`.  For a stale active user,
`performCleanup` deletes only the reaped user's user-rooms binding,
whereas `RemoveUser` also deletes the partner's. -/

/-- C5 counterexample: in `poolAB` user a is stale at cutoff 50 and b is
fresh.  One reaper pass leaves b's user-rooms binding in place, while
`remove a` deletes it, so the pass does not have the same effect on the
pool as `remove a`. -/
theorem c5_counterexample :
    mfind (performCleanup poolAB 50).userRooms "b" =
      some (generateRoomID tsAB) ∧
    mfind (removeUser poolAB "a").userRooms "b" = none ∧
    performCleanup poolAB 50 ≠ removeUser poolAB "a" := by
  decide

/-- C5 amended: over any two-user room state in which user a is stale and
its partner b fresh, the reaper pass closes out a by deleting it from
active, marking the room inactive and deleting a's binding only — the
partner's binding survives — whereas `remove a` deletes both bindings. -/
theorem c5_amended (a b rid : String) (uA uB : User) (room : Room)
    (cutoff : Nat)
    (hab : a ≠ b)
    (hstale : uA.conn.lastPing < cutoff)
    (hfresh : ¬ uB.conn.lastPing < cutoff)
    (hrid : rid ≠ "")
    (hr1 : room.user1ID = a)
    (hr2 : room.user2ID = b) :
    performCleanup
      { waitingUsers := [], activeUsers := [(a, uA), (b, uB)],
        rooms := [(rid, room)], userRooms := [(a, rid), (b, rid)] }
      cutoff =
      { waitingUsers := [], activeUsers := [(b, uB)],
        rooms := [(rid, { room with isActive := false })],
        userRooms := [(b, rid)] } ∧
    removeUser
      { waitingUsers := [], activeUsers := [(a, uA), (b, uB)],
        rooms := [(rid, room)], userRooms := [(a, rid), (b, rid)] }
      a =
      { waitingUsers := [], activeUsers := [(b, uB)],
        rooms := [(rid, { room with isActive := false })],
        userRooms := [] } := by
  have hba : b ≠ a := Ne.symm hab
  constructor
  · simp [performCleanup, cleanupActiveEntry, mfind, merase, minsert,
      hstale, hfresh, hrid, hab, hba]
  · simp [removeUser, mfind, merase, minsert, hr1, hr2, hab, hba]

/-- C6 counterexample: a payload whose type field is present but is the
number 3 — hence not equal to the string offer — is accepted by the
source validator, refuting the claimed iff. -/
theorem c6_counterexample :
    validateSDPOffer offerPayloadNumType = true ∧
    claimAcceptsSDP "offer" offerPayloadNumType = false := by
  decide

theorem sdp_chain_fst (sdp : String) (typeOk : Bool)
    (m0 m1 m2 m3 m4 m5 m6 : String) :
    (if sdp.length = 0 then (false, m0)
     else if !typeOk then (false, m1)
     else if !(strStartsWith sdp "v=0") then (false, m2)
     else if !(strContains sdp "o=") then (false, m3)
     else if !(strContains sdp "s=") then (false, m4)
     else if !(strContains sdp "t=") then (false, m5)
     else if !(strContains sdp "m=audio"
         || strContains sdp "m=application") then (false, m6)
     else (true, "")).1 = (sdpShapeOk sdp && typeOk) := by
  by_cases hl : sdp.length = 0
  · have hlb : (sdp.length == 0) = true := by simpa using hl
    simp [hl, sdpShapeOk, hlb]
  · have hlb : (sdp.length == 0) = false := by simpa using hl
    simp only [sdpShapeOk, hlb, Bool.not_false, Bool.true_and]
    cases hty : typeOk <;>
      cases hw : strStartsWith sdp "v=0" <;>
      cases ho : strContains sdp "o=" <;>
      cases hss : strContains sdp "s=" <;>
      cases htt : strContains sdp "t=" <;>
      cases hm : (strContains sdp "m=audio"
        || strContains sdp "m=application") <;>
      simp [hl]

theorem validate_sdp_offer_eq (payload : JVal) :
    validateSDPOffer payload = amendedAcceptsSDP "offer" payload := by
  cases payload with
  | obj data =>
      unfold validateSDPOffer validateSDPOfferDetailed amendedAcceptsSDP
      cases hs : mfind data "sdp" with
      | none => simp [hs]
      | some v =>
          cases v with
          | str sdp =>
              simp only [hs]
              rw [sdp_chain_fst]
          | num n => simp [hs]
          | bool b => simp [hs]
          | null => simp [hs]
          | obj f => simp [hs]
          | arr a => simp [hs]
  | str s => rfl
  | num n => rfl
  | bool b => rfl
  | null => rfl
  | arr a => rfl

theorem validate_sdp_answer_eq (payload : JVal) :
    validateSDPAnswer payload = amendedAcceptsSDP "answer" payload := by
  cases payload with
  | obj data =>
      unfold validateSDPAnswer validateSDPAnswerDetailed amendedAcceptsSDP
      cases hs : mfind data "sdp" with
      | none => simp [hs]
      | some v =>
          cases v with
          | str sdp =>
              simp only [hs]
              rw [sdp_chain_fst]
          | num n => simp [hs]
          | bool b => simp [hs]
          | null => simp [hs]
          | obj f => simp [hs]
          | arr a => simp [hs]
  | str s => rfl
  | num n => rfl
  | bool b => rfl
  | null => rfl
  | arr a => rfl

/-- C6 amended: the source validators accept exactly the payloads of the
claim with one correction — a type field that is present with a
non-string value is ignored rather than rejected; in every other respect
(keyed map, non-empty string sdp beginning with v=0 and containing o=,
s=, t= and one of m=audio or m=application, and a present string type
field equal to offer or answer respectively) the claim is exact. -/
theorem c6_amended (payload : JVal) :
    validateSDPOffer payload = amendedAcceptsSDP "offer" payload ∧
    validateSDPAnswer payload = amendedAcceptsSDP "answer" payload :=
  ⟨validate_sdp_offer_eq payload, validate_sdp_answer_eq payload⟩

/-- C5 witness: the amended theorem at the fixture values of `poolAB`
(user a stale at cutoff 50, partner b fresh). -/
theorem c5_witness :
    performCleanup
      { waitingUsers := [],
        activeUsers := [("a", auAB), ("b", buAB)],
        rooms := [(generateRoomID tsAB, roomAB)],
        userRooms := [("a", generateRoomID tsAB),
                      ("b", generateRoomID tsAB)] }
      50 =
      { waitingUsers := [], activeUsers := [("b", buAB)],
        rooms := [(generateRoomID tsAB, { roomAB with isActive := false })],
        userRooms := [("b", generateRoomID tsAB)] } ∧
    removeUser
      { waitingUsers := [],
        activeUsers := [("a", auAB), ("b", buAB)],
        rooms := [(generateRoomID tsAB, roomAB)],
        userRooms := [("a", generateRoomID tsAB),
                      ("b", generateRoomID tsAB)] }
      "a" =
      { waitingUsers := [], activeUsers := [("b", buAB)],
        rooms := [(generateRoomID tsAB, { roomAB with isActive := false })],
        userRooms := [] } :=
  c5_amended "a" "b" (generateRoomID tsAB) auAB buAB roomAB 50
    (by decide) (by decide) (by decide) (by decide) (by decide) (by decide)

/-- C7 counterexample: the dispatch-path candidate validator accepts a
payload whose sdpMLineIndex is the number 100, although the claim
requires every candidate payload with an index outside 0..10 to be
rejected. -/
theorem c7_counterexample :
    validateICECandidate candOutOfRange = true ∧ (10 : Int) < 100 := by
  decide

/-- C7 amended: the dispatch-path validators enforce no size ceiling and
no index range.  An offer payload whose sdp passes the shape checks is
accepted whatever its length, and a candidate payload whose candidate
string passes the shape checks is accepted whatever its length and
whatever number its sdpMLineIndex holds. -/
theorem c7_amended :
    (∀ s : String, ¬ s.length = 0 → strStartsWith s "v=0" = true →
       strContains s "o=" = true → strContains s "s=" = true →
       strContains s "t=" = true → strContains s "m=audio" = true →
       validateSDPOfferDetailed (.obj [("sdp", .str s)]) = (true, "")) ∧
    (∀ (c : String) (n : Int), ¬ c.length = 0 →
       strContains c "candidate:" = true →
       validateICECandidateDetailed
         (.obj [("candidate", .str c), ("sdpMLineIndex", .num n)]) =
         (true, "")) := by
  constructor
  · intro s h0 hw ho hss htt hm
    simp [validateSDPOfferDetailed, mfind, h0, hw, ho, hss, htt, hm]
  · intro c n h0 hc
    simp [validateICECandidateDetailed, mfind, h0, hc]

/-- C7 witness: the amended theorem at a concrete well-shaped sdp and a
concrete candidate with index 9999. -/
theorem c7_witness :
    validateSDPOfferDetailed (.obj [("sdp", .str goodSdp)]) = (true, "") ∧
    validateICECandidateDetailed
      (.obj [("candidate", .str "candidate:abc"),
             ("sdpMLineIndex", .num 9999)]) = (true, "") :=
  ⟨c7_amended.1 goodSdp (by decide) (by decide) (by decide) (by decide)
     (by decide) (by decide),
   c7_amended.2 "candidate:abc" 9999 (by decide) (by decide)⟩

/-- C8 counterexample: with the source at its cap (so a slot acquisition
would fail), the handshake still proceeds — the session is accepted and
the limiter state is untouched, so no slot was acquired and the upgrade
was not refused. -/
theorem c8_counterexample :
    (checkWebSocketConnection rlFull "1.2.3.4").1 = false ∧
    (handleWebSocket emptyPool rlFull "1.2.3.4" "u1" "tok1" 5).2.2 = true ∧
    (handleWebSocket emptyPool rlFull "1.2.3.4" "u1" "tok1" 5).2.1 =
      rlFull := by
  decide

/-- C8 amended: `CheckWebSocketConnection` fails exactly when the
source's count has reached the cap and otherwise increments the count,
and `ReleaseWebSocketConnection` decrements a positive count, deleting
the map entry when it reaches zero; but the WebSocket handshake never
invokes either — every session is accepted and the limiter passes
through unchanged. -/
theorem c8_amended :
    (∀ (rl : RateLimiter) (ip : String),
       ((checkWebSocketConnection rl ip).1 = false ↔
         rl.maxWSConnPerIP ≤ (mfind rl.wsConnections ip).getD 0)) ∧
    (∀ (rl : RateLimiter) (ip : String),
       (mfind rl.wsConnections ip).getD 0 < rl.maxWSConnPerIP →
       mfind ((checkWebSocketConnection rl ip).2).wsConnections ip =
         some ((mfind rl.wsConnections ip).getD 0 + 1)) ∧
    (∀ (rl : RateLimiter) (ip : String) (n : Nat),
       mfind rl.wsConnections ip = some (n + 1) →
       mfind (releaseWebSocketConnection rl ip).wsConnections ip =
         (if n = 0 then none else some n)) ∧
    (∀ (p : UserPool) (rl : RateLimiter) (ip userID token : String)
       (now : Nat),
       (handleWebSocket p rl ip userID token now).2.1 = rl ∧
       (handleWebSocket p rl ip userID token now).2.2 = true) := by
  refine ⟨?_, ?_, ?_, fun p rl ip u t n => ⟨rfl, rfl⟩⟩
  · intro rl ip
    unfold checkWebSocketConnection
    by_cases h : rl.maxWSConnPerIP ≤ (mfind rl.wsConnections ip).getD 0
    · rw [if_pos h]
      simpa using h
    · rw [if_neg h]
      simpa using h
  · intro rl ip h
    unfold checkWebSocketConnection
    rw [if_neg (by omega)]
    exact mfind_minsert_self _ _ _
  · intro rl ip n h
    unfold releaseWebSocketConnection
    rw [h]
    by_cases hn : n = 0
    · subst hn
      simp [mfind_merase_self]
    · simp [hn, mfind_minsert_self]

/-- C8 witness: acquiring a slot for a fresh source below the cap yields
count one; releasing one of two held slots leaves count one, and
releasing the last slot removes the source's entry. -/
theorem c8_witness :
    mfind ((checkWebSocketConnection
      { wsConnections := [], maxWSConnPerIP := 10 }
      "9.9.9.9").2).wsConnections "9.9.9.9" = some 1 ∧
    mfind (releaseWebSocketConnection
      { wsConnections := [("9.9.9.9", 2)], maxWSConnPerIP := 10 }
      "9.9.9.9").wsConnections "9.9.9.9" = some 1 ∧
    mfind (releaseWebSocketConnection
      { wsConnections := [("9.9.9.9", 1)], maxWSConnPerIP := 10 }
      "9.9.9.9").wsConnections "9.9.9.9" = none :=
  ⟨c8_amended.2.1 { wsConnections := [], maxWSConnPerIP := 10 } "9.9.9.9"
     (by decide),
   c8_amended.2.2.1 { wsConnections := [("9.9.9.9", 2)], maxWSConnPerIP := 10 }
     "9.9.9.9" 1 (by decide),
   c8_amended.2.2.1 { wsConnections := [("9.9.9.9", 1)], maxWSConnPerIP := 10 }
     "9.9.9.9" 0 (by decide)⟩

/-! Claim C10: the reported room count counts inactive rooms, teardown
never deletes a room, and the count never decreases. -/

theorem length_merase_succ_of_find_some {α : Type}
    {m : List (String × α)} (h : nodupKeys m) {k : String} {v : α}
    (hk : mfind m k = some v) :
    (merase m k).length + 1 = m.length := by
  induction m with
  | nil => cases hk
  | cons e t ih =>
    simp only [nodupKeys, mkeys, List.map_cons, List.nodup_cons] at h
    by_cases he : e.1 = k
    · have hkt : mfind t k = none := by
        rw [mfind_eq_none_iff, ← he]
        simpa [mkeys] using h.1
      simp [merase, he, merase_of_mfind_none hkt]
    · simp only [mfind, he, if_false] at hk
      have ht := ih (by simpa [nodupKeys, mkeys] using h.2)
        (by simpa [he] using hk)
      simp only [merase, if_neg he, List.length_cons]
      omega

theorem length_minsert_of_find_some {α : Type} {m : List (String × α)}
    (h : nodupKeys m) {k : String} {v : α} (hk : mfind m k = some v)
    (w : α) : (minsert m k w).length = m.length := by
  have := length_merase_succ_of_find_some h hk
  simpa [minsert] using this

theorem removeUser_rooms_cases (p : UserPool) (userID : String) :
    (removeUser p userID).rooms = p.rooms ∨
    ∃ (x : String) (v r : Room), mfind p.rooms x = some v ∧
      (removeUser p userID).rooms = minsert p.rooms x r := by
  unfold removeUser
  cases hb : mfind p.userRooms userID with
  | none => left; rfl
  | some rid =>
    cases hr : mfind p.rooms rid with
    | none => left; simp [hr]
    | some room =>
        right
        exact ⟨rid, room, { room with isActive := false }, hr, by simp [hr]⟩

theorem removeUser_rooms_length (p : UserPool) (userID : String)
    (h : nodupKeys p.rooms) :
    (removeUser p userID).rooms.length = p.rooms.length := by
  rcases removeUser_rooms_cases p userID with hc | ⟨x, v, r, hv, hc⟩
  · rw [hc]
  · rw [hc, length_minsert_of_find_some h hv]

theorem removeUser_rooms_nodup (p : UserPool) (userID : String)
    (h : nodupKeys p.rooms) : nodupKeys (removeUser p userID).rooms := by
  rcases removeUser_rooms_cases p userID with hc | ⟨x, v, r, hv, hc⟩
  · rw [hc]; exact h
  · rw [hc]; exact nodupKeys_minsert h x r

theorem handleDisconnect_rooms_length (p : UserPool) (userID : String)
    (h : nodupKeys p.rooms) :
    ((handleDisconnect p userID).1).rooms.length = p.rooms.length := by
  unfold handleDisconnect
  cases hfp : findPartner p userID with
  | none => exact removeUser_rooms_length p userID h
  | some partner =>
      have hmw := moveToWaiting_rooms p partner.id
      have hnd : nodupKeys (moveToWaiting p partner.id).rooms := by
        rw [hmw]; exact h
      rw [removeUser_rooms_length _ userID hnd, hmw]

theorem cleanupActiveEntry_rooms_cases (cutoff : Nat) (p : UserPool)
    (e : String × User) :
    (cleanupActiveEntry cutoff p e).rooms = p.rooms ∨
    ∃ (x : String) (r : Room),
      (cleanupActiveEntry cutoff p e).rooms = minsert p.rooms x r := by
  unfold cleanupActiveEntry
  by_cases hst : e.2.conn.lastPing < cutoff
  · rw [if_pos hst]
    by_cases hrid : ((mfind p.userRooms e.1).getD "") ≠ ""
    · cases hm : mfind p.rooms ((mfind p.userRooms e.1).getD "") with
      | none => left; simp [hrid, hm]
      | some room =>
          right
          refine ⟨(mfind p.userRooms e.1).getD "",
            { room with isActive := false }, ?_⟩
          simp [hrid, hm]
    · left; simp [hrid]
  · rw [if_neg hst]
    left
    rfl

theorem rooms_step_mono {p : UserPool} {m2 : List (String × Room)}
    (h : nodupKeys p.rooms)
    (hc : m2 = p.rooms ∨ ∃ (x : String) (r : Room), m2 = minsert p.rooms x r) :
    nodupKeys m2 ∧ p.rooms.length ≤ m2.length := by
  rcases hc with hc | ⟨x, r, hc⟩
  · rw [hc]; exact ⟨h, le_refl _⟩
  · rw [hc]; exact ⟨nodupKeys_minsert h x r, length_minsert_ge h x r⟩

theorem cleanup_fold_rooms (cutoff : Nat) :
    ∀ (es : List (String × User)) (p : UserPool), nodupKeys p.rooms →
      nodupKeys (es.foldl (cleanupActiveEntry cutoff) p).rooms ∧
      p.rooms.length ≤ (es.foldl (cleanupActiveEntry cutoff) p).rooms.length := by
  intro es
  induction es with
  | nil => intro p h; exact ⟨h, le_refl _⟩
  | cons e t ih =>
      intro p h
      have hstep := rooms_step_mono h (cleanupActiveEntry_rooms_cases cutoff p e)
      have ht := ih (cleanupActiveEntry cutoff p e) hstep.1
      exact ⟨ht.1, le_trans hstep.2 ht.2⟩

theorem applyOp_rooms (p : UserPool) (op : PoolOp) (h : nodupKeys p.rooms) :
    nodupKeys (applyOp p op).rooms ∧
    p.rooms.length ≤ (applyOp p op).rooms.length := by
  cases op with
  | addWaiting u now => exact ⟨h, le_refl _⟩
  | create u1 u2 now ts =>
      exact ⟨nodupKeys_minsert h _ _, length_minsert_ge h _ _⟩
  | toActive userID =>
      rw [show (applyOp p (PoolOp.toActive userID)).rooms = p.rooms from
        moveToActive_rooms p userID]
      exact ⟨h, le_refl _⟩
  | toWaiting userID =>
      rw [show (applyOp p (PoolOp.toWaiting userID)).rooms = p.rooms from
        moveToWaiting_rooms p userID]
      exact ⟨h, le_refl _⟩
  | remove userID =>
      refine rooms_step_mono h ?_
      rcases removeUser_rooms_cases p userID with hc | ⟨x, v, r, _, hc⟩
      · exact Or.inl hc
      · exact Or.inr ⟨x, r, hc⟩
  | cleanup cutoff =>
      exact cleanup_fold_rooms cutoff p.activeUsers _ h
  | disconnect userID =>
      have hlen := handleDisconnect_rooms_length p userID h
      have hnodup : nodupKeys ((handleDisconnect p userID).1).rooms := by
        unfold handleDisconnect
        cases hfp : findPartner p userID with
        | none => exact removeUser_rooms_nodup p userID h
        | some partner =>
            have hmw := moveToWaiting_rooms p partner.id
            exact removeUser_rooms_nodup _ userID (by rw [hmw]; exact h)
      exact ⟨hnodup, le_of_eq hlen.symm⟩

theorem applyOps_rooms (p : UserPool) (ops : List PoolOp)
    (h : nodupKeys p.rooms) :
    nodupKeys (applyOps p ops).rooms ∧
    p.rooms.length ≤ (applyOps p ops).rooms.length := by
  induction ops generalizing p with
  | nil => exact ⟨h, le_refl _⟩
  | cons op t ih =>
      have hstep := applyOp_rooms p op h
      have ht := ih (applyOp p op) hstep.1
      exact ⟨ht.1, le_trans hstep.2 ht.2⟩

/-- C10: the stats room count is the full size of the rooms map, inactive
rooms included; removing a paired user marks its room inactive but keeps
it in the map; teardown leaves the room count unchanged; and over any
sequence of pool operations the room count never decreases (rooms are
never deleted). -/
theorem c10_theorem :
    (∀ p : UserPool, (getStats p).activeRoomsCount = p.rooms.length) ∧
    (∀ (p : UserPool) (userID rid : String) (room : Room),
       mfind p.userRooms userID = some rid →
       mfind p.rooms rid = some room →
       mfind (removeUser p userID).rooms rid =
         some { room with isActive := false }) ∧
    (∀ (p : UserPool) (userID : String), nodupKeys p.rooms →
       (getStats ((handleDisconnect p userID).1)).activeRoomsCount =
         (getStats p).activeRoomsCount) ∧
    (∀ (p : UserPool) (ops : List PoolOp), nodupKeys p.rooms →
       (getStats p).activeRoomsCount ≤
         (getStats (applyOps p ops)).activeRoomsCount) := by
  refine ⟨fun p => rfl, ?_, ?_, ?_⟩
  · intro p userID rid room hb hr
    unfold removeUser
    rw [hb]
    simp [hr, mfind_minsert_self]
  · intro p userID h
    exact handleDisconnect_rooms_length p userID h
  · intro p ops h
    exact (applyOps_rooms p ops h).2

/-- C10 witness: the parts with hypotheses applied at the fixture pool:
removing a in `poolAB` keeps the (now inactive) room, teardown keeps the
count, and a remove followed by a reaper pass does not shrink it. -/
theorem c10_witness :
    mfind (removeUser poolAB "a").rooms (generateRoomID tsAB) =
      some { roomAB with isActive := false } ∧
    (getStats ((handleDisconnect poolAB "a").1)).activeRoomsCount =
      (getStats poolAB).activeRoomsCount ∧
    (getStats poolAB).activeRoomsCount ≤
      (getStats (applyOps poolAB
        [PoolOp.remove "a", PoolOp.cleanup 50])).activeRoomsCount :=
  ⟨c10_theorem.2.1 poolAB "a" (generateRoomID tsAB) roomAB (by decide)
     (by decide),
   c10_theorem.2.2.1 poolAB "a" (by unfold nodupKeys; decide),
   c10_theorem.2.2.2 poolAB [PoolOp.remove "a", PoolOp.cleanup 50]
     (by unfold nodupKeys; decide)⟩

end TalkApp
